import Mathlib

/-!
Verification of the `auto-sub` classification → command-synthesis → progress-monitoring
pipeline (package `internals/ffmpeg`, files `handler.go` and the updates module).

Strings are modelled as `List Char` (Go strings are byte slices; all string data
handled by the verified code paths is ASCII).  Machine integers (`int`, `int64`)
are modelled as `ℤ`; Go's truncating integer division is `Int.tdiv`.  `float64`
and `float32` arithmetic is modelled over `ℚ` (exact arithmetic; the float
rounding error of the source is far below the two-decimal display precision
used by the program, and no theorem below depends on behaviour that is
implementation-defined for floats, such as `int(NaN)`).
-/

set_option maxRecDepth 8000

namespace AutoSub

/-- File names / argument strings, modelled as character lists. -/
abbrev Str := List Char

/-- Converts a Lean string literal to the model representation. -/
def str (s : String) : Str := s.data

/-- Character test used when splitting a name at its final period. -/
def notDot (c : Char) : Bool := c != '.'

/-- Go `strings.ToLower` (ASCII range, which covers every recognized extension). -/
def toLowerStr (s : Str) : Str := s.map Char.toLower

/-- Go `strings.TrimLeft(ext, ".")`: removes every leading period. -/
def trimLeftDots (e : Str) : Str := e.dropWhile (fun c => c == '.')

/-- Go `strings.HasSuffix(s, suf)`. -/
def hasSuffixB (s suf : Str) : Bool := List.isSuffixOf suf s

/-- The characters after the final period of `s` (the claim-level notion of a
file extension, without the period; equals `s` itself when `s` has no period). -/
def extAfterDot (s : Str) : Str := (s.reverse.takeWhile notDot).reverse

/-- Whether `pat` occurs contiguously inside `s` (used to state that an argument
vector contains a given directive pair, or that a rendered line contains a given
fragment). -/
def seqWithin {α : Type} [BEq α] (pat s : List α) : Bool :=
  (List.range (s.length + 1)).any fun i => List.take pat.length (List.drop i s) == pat

/-! ### Recognized extension enumerations (`handler.go`, package-level `var` block) -/

/-- Extensions treated as the main video file. -/
def videoExt : List Str := [str "mkv", str "mp4", str "webm", str "m2ts"]

/-- Extensions treated as subtitle files. -/
def subsExt : List Str := [str "srt", str "ass", str "sup", str "pgs", str "vtt"]

/-- Extensions treated as font attachments. -/
def attachmentExt : List Str := [str "ttf", str "otf"]

/-- Extensions treated as chapter/tag files. -/
def chaptersExt : List Str := [str "xml"]

/-- `checkExt` (handler.go): for each extension in the list, prepend a period to
the dot-trimmed extension and test whether the lower-cased file name ends with it. -/
def checkExt (fileName : Str) (extensions : List Str) : Bool :=
  extensions.any fun ext => hasSuffixB (toLowerStr fileName) ('.' :: trimLeftDots ext)

/-- The four file roles recognized by `groupFiles`. -/
inductive FileCategory where
  | media
  | subtitle
  | attachment
  | chapter
deriving DecidableEq

/-- The extension enumeration backing each category. -/
def catExts : FileCategory → List Str
  | .media => videoExt
  | .subtitle => subsExt
  | .attachment => attachmentExt
  | .chapter => chaptersExt

/-- The classification switch inside `groupFiles` (handler.go): the first matching
category in the order video / subtitle / attachment / chapter, or none. -/
def classifyFile (name : Str) : Option FileCategory :=
  if checkExt name videoExt then some .media
  else if checkExt name subsExt then some .subtitle
  else if checkExt name attachmentExt then some .attachment
  else if checkExt name chaptersExt then some .chapter
  else none

/-- The four buckets returned by `groupFiles`. -/
structure Grouped where
  media : List Str
  subs : List Str
  atts : List Str
  chaps : List Str
deriving DecidableEq

/-- One iteration of the `groupFiles` loop: skip ignored entries, then append the
file to the bucket selected by the classification switch (directories are
filtered out before this point by the caller-side `file.IsDir()` check, so the
model receives regular file names only). -/
def groupStep (ign : Str → Bool) (g : Grouped) (f : Str) : Grouped :=
  if ign f then g
  else
    match classifyFile f with
    | some .media => { g with media := g.media ++ [f] }
    | some .subtitle => { g with subs := g.subs ++ [f] }
    | some .attachment => { g with atts := g.atts ++ [f] }
    | some .chapter => { g with chaps := g.chaps ++ [f] }
    | none => g

/-- `groupFiles` (handler.go): fold the classification step over the directory
entries (already sorted by name by `ioutil.ReadDir`). -/
def groupFiles (ign : Str → Bool) (files : List Str) : Grouped :=
  files.foldl (groupStep ign) ⟨[], [], [], []⟩

/-! ### Command synthesis (`generateCmd`, handler.go) -/

/-- The `commons.UserInput` fields consumed by `generateCmd`. -/
structure UserInput where
  subTitleString : Str
  subLang : Str
  force : Bool

/-- `filepath.Join` for one directory and one name (call sites always pass a
clean directory path and a plain file name). -/
def joinPath (dir name : Str) : Str := dir ++ '/' :: name

/-- `filepath.Ext`: the suffix starting at the final period (period included),
empty when the name has no period. -/
def fileExt (name : Str) : Str :=
  if name.contains '.' then '.' :: extAfterDot name else []

/-- Go `strings.TrimSuffix`. -/
def trimSuffixStr (s suf : Str) : Str :=
  if hasSuffixB s suf then s.take (s.length - suf.length) else s

/-- Modelled from the spec: `UserInput.OutputName` (package `internals/commons`)
is not under `src/` — only its callers and its unit test are.  Spec §4.2 item 7:
"Append the output path: `outputDir/<mediaFile base name>.mkv` (the container
extension is always forced to the multiplexed-container extension)".  This
matches `TestOutputName` in `commons_test.go` ("input.mp4" ↦ "input.mkv") and
the inline expression of the earlier handler revisions. -/
def outputName (name : Str) : Str := trimSuffixStr name (fileExt name) ++ str ".mkv"

/-- Decimal rendering of a natural number (`strconv.Itoa` / `%d` / `%v`). -/
def natToStr (n : ℕ) : Str := Nat.toDigits 10 n

/-- Decimal rendering of an integer (`strconv.Itoa` / `%d` / `%v`). -/
def intToStr (i : ℤ) : Str :=
  if i < 0 then '-' :: natToStr i.natAbs else natToStr i.natAbs

/-- The input declarations: the media file as stream 0, then one `-i` per
subtitle file, in classifier order. -/
def inputSeg (dir media : Str) (subs : List Str) : List Str :=
  [str "-i", joinPath dir media]
    ++ subs.flatMap fun sub => [str "-i", joinPath dir sub]

/-- The stream-mapping loop of the current `generateCmd`:
`for i := 1; i < len(subsFound)+1; i++ { append("-map", strconv.Itoa(i)) }`. -/
def mapSeg (n : ℕ) : List Str :=
  (List.range' 1 n).flatMap fun i => [str "-map", intToStr (i : ℤ)]

/-- The title chosen for a subtitle stream: the user-supplied override, else the
subtitle file name minus its extension. -/
def subTitleFor (ui : UserInput) (sub : Str) : Str :=
  if ui.subTitleString = [] then trimSuffixStr sub (fileExt sub)
  else ui.subTitleString

/-- The metadata pair(s) emitted for the subtitle at subtitle-position `i`:
a title tag, and a language tag when the language option is set. -/
def subMetaEntry (ui : UserInput) (i : ℕ) (sub : Str) : List Str :=
  [str "-metadata:s:s:" ++ natToStr i, str "title=" ++ subTitleFor ui sub]
    ++ (if ui.subLang = [] then []
        else [str "-metadata:s:s:" ++ natToStr i, str "language=" ++ ui.subLang])

/-- The subtitle-metadata loop (`for i, sub := range subsFound`), with `i`
starting at the given counter value (0 at the call site). -/
def subMetaLoop (ui : UserInput) (i : ℕ) : List Str → List Str
  | [] => []
  | sub :: rest => subMetaEntry ui i sub ++ subMetaLoop ui (i + 1) rest

/-- Mime tag attached to chapter files. -/
def xmlMime : Str := str "mimetype=text/xml"

/-- Mime tag attached to font files. -/
def fontMime : Str := str "mimetype=application/x-truetype-font"

/-- The arguments emitted for one `-attach` file at auxiliary-stream counter `k`. -/
def attachEntry (dir mime : Str) (k : ℕ) (f : Str) : List Str :=
  [str "-attach", joinPath dir f, str "-metadata:s:t:" ++ natToStr k, mime]

/-- The attach loops of `generateCmd`; the `streams` counter starts at 0 for
chapters and continues (at `len(chaptersFound)`) for attachments. -/
def attachLoop (dir mime : Str) (k : ℕ) : List Str → List Str
  | [] => []
  | f :: rest => attachEntry dir mime k f ++ attachLoop dir mime (k + 1) rest

/-- Everything `generateCmd` appends before the chapter/attachment section:
inputs, the global copy directive, the map loop and the subtitle metadata.
None of it depends on the chapter or attachment lists. -/
def leadSeg (dir : Str) (ui : UserInput) (media : Str) (subs : List Str) : List Str :=
  inputSeg dir media subs ++ [str "-c", str "copy"] ++ mapSeg subs.length
    ++ subMetaLoop ui 0 subs

/-- Everything `generateCmd` appends after the subtitle metadata: the attach
section, the output path, and the optional force flag. -/
def tailSeg (dir : Str) (ui : UserInput) (outDir media : Str)
    (atts chaps : List Str) : List Str :=
  attachLoop dir xmlMime 0 chaps ++ attachLoop dir fontMime chaps.length atts
    ++ [joinPath outDir (outputName media)]
    ++ (if ui.force then [str "-f"] else [])

/-- `generateCmd` (current handler): the full argument vector handed to the
transcoder executable, in construction order. -/
def generateCmdArgs (dir : Str) (ui : UserInput) (outDir : Str) (media : Str)
    (subs atts chaps : List Str) : List Str :=
  leadSeg dir ui media subs ++ tailSeg dir ui outDir media atts chaps

/-- The three classification failures diagnosed by `sourceDir` (each prints its
own distinct error message and returns `SourceDirectoryError` before any
command is formed). -/
inductive SourceDirError where
  | noMediaFile
  | multipleMediaFiles
  | noExtraFiles
deriving DecidableEq

/-- `sourceDir` (current handler) up to the point where the command is handed to
`cmd.Run()`: group the directory entries, run the validation switch, and only in
the fall-through case build the argument vector from `mediaFiles[0]` and the
other buckets. -/
def sourceDirProcess (dir resDir : Str) (ui : UserInput) (ign : Str → Bool)
    (files : List Str) : Except SourceDirError (List Str) :=
  let g := groupFiles ign files
  match g.media with
  | [] => .error .noMediaFile
  | m :: rest =>
    if 0 < rest.length then .error .multipleMediaFiles
    else if g.subs.length = 0 ∧ g.atts.length = 0 ∧ g.chaps.length = 0 then
      .error .noExtraFiles
    else .ok (generateCmdArgs dir ui resDir m g.subs g.atts g.chaps)

/-! ### Progress monitor (updates module of package ffmpeg) -/

/-- Go regexp `\s` (`[\t\n\f\r ]`). -/
def goSpace (c : Char) : Bool :=
  c == '\t' || c == '\n' || c == '\x0c' || c == '\r' || c == ' '

/-- Whether the literal token occurs in `s` at index `i`. -/
def tokenMatchAt (s tok : Str) (i : ℕ) : Bool :=
  List.take tok.length (List.drop i s) == tok

/-- Whether position `i` can be preceded by `.*(\s+|^)`: the start of the text,
or at least one whitespace character (Go regexp `^` matches only at the start of
the text since the multi-line flag is off, and `\s+` directly precedes the
token; the newline-free `.*` before the whitespace run is always satisfiable). -/
def boundaryOk (s : Str) (i : ℕ) : Bool :=
  i == 0 ||
    (match (s.take i).getLast? with
     | some c => goSpace c
     | none => true)

/-- The capture group of `<token>\s*(\d+)` when the pattern matches at `i` with
a valid left boundary: skip whitespace after the token, then take the maximal
(non-empty) digit run. -/
def captureAt (s tok : Str) (optL : Bool) (i : ℕ) : Option Str :=
  let bOk :=
    boundaryOk s i ||
      (optL && ((s.take i).getLast? == some 'L') && boundaryOk s (i - 1) && i != 0)
  if tokenMatchAt s tok i && bOk then
    let ds := ((s.drop (i + tok.length)).dropWhile goSpace).takeWhile Char.isDigit
    if ds.isEmpty then none else some ds
  else none

/-- The digits captured by the compiled patterns `.*(\s+|^)frame=\s*(\d+)` (and
the analogous `fps=` / `L?size=` patterns) on the buffer text: the last valid
occurrence in the buffer.  (With a leading greedy `.*`, Go's regexp engine
captures the right-most token occurrence reachable from the left-most feasible
match start; the occurrences coincide on the single-line diagnostic chunks the
transcoder emits, and no theorem below depends on which occurrence is chosen —
only on whether some occurrence exists.) -/
def lastCapture (s tok : Str) (optL : Bool) : Option Str :=
  ((List.range (s.length + 1)).filterMap (captureAt s tok optL)).getLast?

/-- The failure sentinel returned by `convertor` (constant `convFail`). -/
def convFail : ℤ := -1

/-- `convertor`: `strconv.ParseInt(in, 10, 64)` with the sentinel on failure.
The inputs produced by the capture groups are digit-only, so the relevant
behaviour is: value of the digit string, unless it overflows a signed 64-bit
integer (or the string is not a plain digit run), in which case `convFail`. -/
def convertor (s : Str) : ℤ :=
  if s ≠ [] ∧ s.all Char.isDigit then
    let v : ℕ := s.foldl (fun a c => a * 10 + (c.toNat - 48)) 0
    if v ≤ 9223372036854775807 then (v : ℤ) else convFail
  else convFail

/-- `extractData`: run the three extractions over the buffer; a value whose
pattern does not match keeps Go's zero value, and the size capture (kilobytes)
is multiplied by 1000 after conversion. -/
def extractData (buf : Str) : ℤ × ℤ × ℤ :=
  let curFrames :=
    match lastCapture buf (str "frame=") false with
    | some ds => convertor ds
    | none => 0
  let curFps :=
    match lastCapture buf (str "fps=") false with
    | some ds => convertor ds
    | none => 0
  let curSize :=
    match lastCapture buf (str "size=") true with
    | some ds => convertor ds * 1000
    | none => 0
  (curFrames, curFps, curSize)

/-- The fields of the `Updates` structure used by the display path
(`userInput` and `filePath` only feed the frame-probe subprocess, which is an
external invocation outside this model). -/
structure Upd where
  fileName : Str
  sourceDir : Str
  resDir : Str
  totalFrames : ℤ

/-- The percentage computed by `getProgress`:
`float32(curFrames*100) / float32(totalFrames)`, over exact arithmetic. -/
def percentOf (curFrames totalFrames : ℤ) : ℚ :=
  ((curFrames * 100 : ℤ) : ℚ) / ((totalFrames : ℤ) : ℚ)

/-- Go conversion `int(f)` of a real value: truncation toward zero. -/
def ratTrunc (q : ℚ) : ℤ := Int.tdiv q.num q.den

/-- The progress-bar width (`pbLen`). -/
def pbLen : ℤ := 40

/-- `fills := (pbLen * progress) / 100` (Go integer division truncates toward
zero; the 64-bit wrap-around of the multiplication, reachable only for
percentages beyond 2^57, is not modelled). -/
def pbFillsRaw (progress : ℤ) : ℤ := Int.tdiv (pbLen * progress) 100

/-- `fills` after the zero bump (`if fills == 0 { fills++ }`). -/
def pbFills (progress : ℤ) : ℤ :=
  if pbFillsRaw progress = 0 then pbFillsRaw progress + 1 else pbFillsRaw progress

/-- The secondary animation counter after one unknown-bar call:
`tempAnimationProgress += 5; if pbLen-tempAnimationProgress <= 0 { reset }`. -/
def pbAnimNext (anim : ℤ) : ℤ :=
  if pbLen - (anim + 5) ≤ 0 then 0 else anim + 5

/-- `strings.Repeat` of a single character: panics (`none`) on a negative count. -/
def charRepeat (c : Char) (n : ℤ) : Option Str :=
  if n < 0 then none else some (List.replicate n.toNat c)

/-- `progressBar`: the normal bar for a valid fill count, and the question-mark
"unknown" bar (driven by the global `tempAnimationProgress` counter, threaded
here as explicit state) when the fill count is negative or exceeds the width.
`none` models a `strings.Repeat` panic. -/
def progressBar (progress : ℤ) (anim : ℤ) : Option Str × ℤ :=
  if pbFills progress < 0 ∨ pbLen - pbFills progress < 0 then
    match charRepeat '?' (pbAnimNext anim), charRepeat ' ' (pbLen - pbAnimNext anim) with
    | some qs, some sp => (some (str "[ " ++ qs ++ sp ++ str " ]"), pbAnimNext anim)
    | _, _ => (none, pbAnimNext anim)
  else
    match charRepeat '=' (pbFills progress - 1), charRepeat ' ' (pbLen - pbFills progress) with
    | some eqs, some sp => (some (str "[ " ++ eqs ++ '>' :: sp ++ str " ]"), anim)
    | _, _ => (none, anim)

/-- Round to the nearest integer, ties to even (the rounding used by Go's
`%.2f` formatting, applied to the value scaled by 100). -/
def roundHalfEven (q : ℚ) : ℤ :=
  let f : ℤ := Int.fdiv q.num (q.den : ℤ)
  let r : ℚ := q - (f : ℚ)
  if r < 1 / 2 then f
  else if 1 / 2 < r then f + 1
  else if f % 2 = 0 then f else f + 1

/-- `fmt.Sprintf("%.2f", q)` for the non-negative values formatted by the
monitor: two decimal places. -/
def format2 (q : ℚ) : Str :=
  let n := roundHalfEven (q * 100)
  let a := n.natAbs
  (if n < 0 then ['-'] else [])
    ++ natToStr (a / 100)
    ++ '.' :: (if a % 100 < 10 then '0' :: natToStr (a % 100) else natToStr (a % 100))

/-- The division loop of `readableFileSize`:
`for fileSize >= 1024 { counter++; fileSize /= 1024 }`. -/
def divLoop (x : ℚ) (c : ℕ) : ℚ × ℕ :=
  if 1024 ≤ x then divLoop (x / 1024) (c + 1) else (x, c)
termination_by (⌈x⌉).toNat
decreasing_by
  have h1 : (1024 : ℚ) ≤ x := by assumption
  have hx : x / 1024 ≤ x - 1023 := by nlinarith
  have h2 : ⌈x / 1024⌉ ≤ ⌈x⌉ - 1023 := by
    calc ⌈x / 1024⌉ ≤ ⌈x - 1023⌉ := Int.ceil_le_ceil hx
      _ = ⌈x⌉ - 1023 := by
          simp
  have h3 : (1024 : ℤ) ≤ ⌈x⌉ := by
    have h4 : (1024 : ℚ) ≤ (⌈x⌉ : ℚ) := le_trans h1 (Int.le_ceil x)
    exact_mod_cast h4
  omega

/-- The unit list of `readableFileSize` (six entries, ending at `PiB`). -/
def unitsList : List Str :=
  [str "B", str "KiB", str "MiB", str "GiB", str "TiB", str "PiB"]

/-- Outcome of `readableFileSize`: a rendered size, or one of its two panics
(the explicit negative-size panic, and the runtime index-out-of-range panic
when the division loop counter runs past the unit list). -/
inductive SizeResult where
  | ok (s : Str)
  | panicNegative
  | panicIndexRange
deriving DecidableEq

/-- `readableFileSize`: reject negative sizes loudly, divide by 1024 until the
value is below 1024, then format with two decimals and the unit picked by the
loop counter (`units[counter]` — a runtime panic when `counter` is past the
end). -/
def readableFileSize (fileSize : ℚ) : SizeResult :=
  if fileSize < 0 then .panicNegative
  else
    let p := divLoop fileSize 0
    match unitsList.get? p.2 with
    | some u => .ok (format2 p.1 ++ ' ' :: u)
    | none => .panicIndexRange

/-- The display-width limit of `trimString` (constant `strTrimLen`). -/
def strTrimLen : ℕ := 48

/-- The fixed ellipsis marker of `trimString`. -/
def sepEllipsis : Str := str "...."

/-- `trimString`: short strings unchanged; longer strings become a
`half`-character prefix, the marker, and a `half`-character suffix. -/
def trimString (s : Str) : Str :=
  if s.length ≤ strTrimLen then s
  else
    let half := (strTrimLen - sepEllipsis.length) / 2
    s.take half ++ sepEllipsis ++ s.drop (s.length - half)

/-- The left padding of every progress line. -/
def padLeft : Str := str "  "

/-- The right padding of every progress line. -/
def padRight : Str := str "\t\t"

/-- The static message printed when all three extracted values are the failure
sentinel. -/
def errMsg : Str :=
  str "If you're seeing this message, something broke :(\nPlease file a bug report!"

/-- The `contents` slice of `getProgress` joined with the padding, with the bar,
percentage and size already rendered (`%.2f` is applied by the caller; note the
literal `"%%"` appended after the percentage in the source). -/
def progressDialog (fileName bar pctStr : Str) (frames fps : ℤ) (sizeStr : Str) : Str :=
  let contents : List Str :=
    [str "File: \"" ++ trimString fileName ++ str "\"",
     str "\n\t" ++ bar ++ '\t' :: pctStr ++ str "%%",
     [],
     str "Frames Processed: " ++ intToStr frames,
     str "Average FPS: " ++ intToStr fps,
     str "Output Size: " ++ sizeStr]
  padLeft ++ List.intercalate (padRight ++ '\n' :: padLeft) contents

/-- `getProgress`: compute the percentage, draw the bar (threading the animation
counter), format the size, and assemble the dialog.  `none` models a panic
raised while building the contents (from `progressBar` or
`readableFileSize`). -/
def getProgress (u : Upd) (curFrames fps size : ℤ) (anim : ℤ) : Option Str × ℤ :=
  match progressBar (ratTrunc (percentOf curFrames u.totalFrames)) anim,
        readableFileSize ((size : ℤ) : ℚ) with
  | (some bar, a2), .ok sizeStr =>
    (some (progressDialog u.fileName bar (format2 (percentOf curFrames u.totalFrames))
        curFrames fps sizeStr),
     a2)
  | (_, a2), _ => (none, a2)

/-- The path whose on-disk size the monitor samples in its final update:
`filepath.Join(update.resDir, update.fileName)`. -/
def finalStatPath (u : Upd) : Str := joinPath u.resDir u.fileName

/-- How one `DisplayUpdates` iteration ends. -/
inductive MonitorOutcome where
  | running
  | ackAndReturn
  | panicked
deriving DecidableEq

/-- Observable results of one `DisplayUpdates` iteration. -/
structure TickRes where
  regular : Option Str
  finalRender : Option Str
  ack : Bool
  outcome : MonitorOutcome
  animOut : ℤ
deriving DecidableEq

/-- One iteration of the `DisplayUpdates` loop: extract the three values from
the buffer, render either the static failure message (all three sentinels) or
the progress dialog, then poll the interrupt channel; on interrupt, re-render
with the authoritative total frame count and the size reported by the
filesystem (`statSize`, the `os.Stat`-backed `getFileSize`) for
`finalStatPath`, append the trailing newlines, send the acknowledgement and
return.  Cursor movement, the printed line count and the buffer reset are
display-only and carry no state relevant to the claims. -/
def displayTickCore (u : Upd) (statSize : Str → ℤ) (anim : ℤ)
    (frames fps size : ℤ) (interrupt : Bool) : TickRes :=
  match (if frames = convFail ∧ fps = convFail ∧ size = convFail
         then (some errMsg, anim)
         else getProgress u frames fps size anim) with
  | (none, a) => ⟨none, none, false, .panicked, a⟩
  | (some r, a) =>
    if interrupt then
      match getProgress u u.totalFrames fps (statSize (finalStatPath u)) a with
      | (none, a2) => ⟨some r, none, false, .panicked, a2⟩
      | (some f, a2) => ⟨some r, some (f ++ str "\n\n\n"), true, .ackAndReturn, a2⟩
    else ⟨some r, none, false, .running, a⟩

/-- The tick body applied to the three extracted values. -/
def displayTick (u : Upd) (statSize : Str → ℤ) (anim : ℤ) (buf : Str)
    (interrupt : Bool) : TickRes :=
  displayTickCore u statSize anim (extractData buf).1 (extractData buf).2.1
    (extractData buf).2.2 interrupt

/-! ### Concrete fixtures used by the closed theorems -/

/-- User input with no overrides (empty custom title, no language, no force). -/
def uiPlain : UserInput := ⟨[], [], false⟩

/-- A monitor state for a render of `movie.mkv` with a known frame count. -/
def uMkv : Upd := ⟨str "movie.mkv", str "src", str "res", 100⟩

/-- A monitor state for a render of `movie.mp4` (a non-mkv container). -/
def uMp4 : Upd := ⟨str "movie.mp4", str "src", str "res", 2400⟩

/-- A filesystem in which only the render's actual output file
`res/movie.mkv` exists; `getFileSize` reports `-10` for any other path. -/
def statMp4World : Str → ℤ :=
  fun p => if p == str "res/movie.mkv" then 94371840 else -10

/-- The argument vector for the end-to-end example directory of claim C1:
`movie.mkv`, `subs.srt`, `chapters.xml`. -/
def exArgs : List Str :=
  generateCmdArgs (str "src") uiPlain (str "out") (str "movie.mkv")
    [str "subs.srt"] [] [str "chapters.xml"]

/-- The dialog rendered by an all-zero tick for the `movie.mkv` render. -/
def dlgZero : Str :=
  progressDialog (str "movie.mkv")
    (str "[ " ++ [] ++ '>' :: List.replicate 39 ' ' ++ str " ]")
    (str "0.00") 0 0 (str "0.00 B")

/-! ## Helper lemmas -/

theorem divLoop_stop (x : ℚ) (c : ℕ) (h : ¬ (1024 : ℚ) ≤ x) : divLoop x c = (x, c) := by
  rw [divLoop]
  simp [h]

theorem divLoop_step (x : ℚ) (c : ℕ) (h : (1024 : ℚ) ≤ x) :
    divLoop x c = divLoop (x / 1024) (c + 1) := by
  rw [divLoop]
  simp [h]

theorem divLoop_snd_ge (x : ℚ) (c : ℕ) : c ≤ (divLoop x c).2 := by
  induction x, c using divLoop.induct with
  | case1 x c h ih =>
    rw [divLoop_step x c h]
    omega
  | case2 x c h =>
    rw [divLoop_stop x c h]

theorem divLoop_count_ge (k : ℕ) : ∀ (x : ℚ) (c : ℕ), (1024 : ℚ) ^ k ≤ x →
    c + k ≤ (divLoop x c).2 := by
  induction k with
  | zero =>
    intro x c _
    simpa using divLoop_snd_ge x c
  | succ k ih =>
    intro x c h
    have h1 : (1024 : ℚ) ≤ x := by
      calc (1024 : ℚ) = 1024 ^ 1 := by norm_num
        _ ≤ 1024 ^ (k + 1) := by
            apply pow_le_pow_right₀ (by norm_num)
            omega
        _ ≤ x := h
    rw [divLoop_step x c h1]
    have h2 : (1024 : ℚ) ^ k ≤ x / 1024 := by
      rw [le_div_iff₀ (by norm_num)]
      calc (1024 : ℚ) ^ k * 1024 = 1024 ^ (k + 1) := by ring
        _ ≤ x := h
    have h3 := ih (x / 1024) (c + 1) h2
    omega

theorem divLoop_bounded : ∀ (n : ℕ) (x : ℚ) (c : ℕ), x < 1024 ^ (n + 1) →
    ∃ k, k ≤ n ∧ divLoop x c = (x / 1024 ^ k, c + k) := by
  intro n
  induction n with
  | zero =>
    intro x c h
    refine ⟨0, le_refl 0, ?_⟩
    rw [divLoop_stop x c (by push_cast at h ⊢; linarith [h])]
    norm_num
  | succ n ih =>
    intro x c h
    by_cases h1 : (1024 : ℚ) ≤ x
    · rw [divLoop_step x c h1]
      have h2 : x / 1024 < 1024 ^ (n + 1) := by
        rw [div_lt_iff₀ (by norm_num)]
        calc x < 1024 ^ (n + 2) := h
          _ = 1024 ^ (n + 1) * 1024 := by ring
      obtain ⟨k, hk, hloop⟩ := ih (x / 1024) (c + 1) h2
      refine ⟨k + 1, by omega, ?_⟩
      rw [hloop]
      simp only [Prod.mk.injEq]
      constructor
      · rw [div_div]
        ring_nf
      · omega
    · refine ⟨0, by omega, ?_⟩
      rw [divLoop_stop x c h1]
      norm_num

theorem divLoop_kib : divLoop 1024 0 = (1, 1) := by
  rw [divLoop_step _ _ (by norm_num),
    show ((1024 : ℚ) / 1024) = 1 by norm_num,
    divLoop_stop _ _ (by norm_num)]

theorem divLoop_tib : divLoop 1855425871872 0 = (27 / 16, 4) := by
  rw [divLoop_step _ _ (by norm_num)]
  rw [show (1855425871872 : ℚ) / 1024 = 1811939328 by norm_num]
  rw [divLoop_step _ _ (by norm_num)]
  rw [show (1811939328 : ℚ) / 1024 = 1769472 by norm_num]
  rw [divLoop_step _ _ (by norm_num)]
  rw [show (1769472 : ℚ) / 1024 = 1728 by norm_num]
  rw [divLoop_step _ _ (by norm_num)]
  rw [show (1728 : ℚ) / 1024 = 27 / 16 by norm_num]
  rw [divLoop_stop _ _ (by norm_num)]

theorem ratFdiv_floor (q : ℚ) : Int.fdiv q.num (q.den : ℤ) = ⌊q⌋ := by
  rw [Rat.floor_def, Int.fdiv_eq_ediv _ (by positivity)]

theorem roundHalfEven_floor (q : ℚ) : roundHalfEven q =
    if q - (⌊q⌋ : ℚ) < 1 / 2 then ⌊q⌋
    else if 1 / 2 < q - (⌊q⌋ : ℚ) then ⌊q⌋ + 1
    else if ⌊q⌋ % 2 = 0 then ⌊q⌋ else ⌊q⌋ + 1 := by
  unfold roundHalfEven
  rw [ratFdiv_floor]

theorem format2_of_floor (q : ℚ) (z : ℤ) (hfl : ⌊q * 100⌋ = z)
    (hlt : q * 100 - (z : ℚ) < 1 / 2) :
    format2 q = (if z < 0 then ['-'] else [])
      ++ natToStr (z.natAbs / 100)
      ++ '.' :: (if z.natAbs % 100 < 10 then '0' :: natToStr (z.natAbs % 100)
                 else natToStr (z.natAbs % 100)) := by
  unfold format2
  rw [roundHalfEven_floor, hfl, if_pos hlt]

theorem format2_of_floor_up (q : ℚ) (z : ℤ) (hfl : ⌊q * 100⌋ = z)
    (hgt : 1 / 2 < q * 100 - (z : ℚ)) :
    format2 q = (if z + 1 < 0 then ['-'] else [])
      ++ natToStr ((z + 1).natAbs / 100)
      ++ '.' :: (if (z + 1).natAbs % 100 < 10 then '0' :: natToStr ((z + 1).natAbs % 100)
                 else natToStr ((z + 1).natAbs % 100)) := by
  unfold format2
  rw [roundHalfEven_floor, hfl, if_neg (by linarith), if_pos hgt]

theorem format2_one : format2 1 = str "1.00" := by
  rw [format2_of_floor 1 100 (by norm_num) (by norm_num)]
  decide

theorem format2_zero : format2 0 = str "0.00" := by
  rw [format2_of_floor 0 0 (by norm_num) (by norm_num)]
  decide

theorem format2_hundred : format2 100 = str "100.00" := by
  rw [format2_of_floor 100 10000 (by norm_num) (by norm_num)]
  decide

theorem format2_tib : format2 (27 / 16) = str "1.69" := by
  rw [format2_of_floor_up (27 / 16) 168 ?_ ?_]
  · decide
  · rw [Int.floor_eq_iff]
    constructor <;> norm_num
  · norm_num

theorem readableFileSize_zero : readableFileSize 0 = .ok (str "0.00 B") := by
  unfold readableFileSize
  rw [if_neg (by norm_num), divLoop_stop 0 0 (by norm_num)]
  show SizeResult.ok (format2 0 ++ ' ' :: str "B") = _
  rw [format2_zero]
  decide

theorem takeWhile_middle (p : Char → Bool) (l1 : List Char) (c : Char) (l2 : List Char)
    (h : ∀ a ∈ l1, p a = true) (hc : p c = false) :
    List.takeWhile p (l1 ++ c :: l2) = l1 := by
  induction l1 with
  | nil => simp [List.takeWhile, hc]
  | cons a rest ih =>
    have ha : p a = true := h a (by simp)
    simp only [List.cons_append, List.takeWhile_cons, ha, if_true]
    rw [ih fun b hb => h b (by simp [hb])]

theorem dropWhile_head_false (p : Char → Bool) (l : List Char) (c : Char)
    (rest : List Char) (h : List.dropWhile p l = c :: rest) : p c = false := by
  induction l with
  | nil => simp at h
  | cons a l ih =>
    rw [List.dropWhile_cons] at h
    by_cases ha : p a = true
    · rw [if_pos ha] at h
      exact ih h
    · rw [if_neg ha] at h
      cases h
      simpa using ha

theorem hasSuffixB_ext_iff (s e : Str) (hnd : e.all notDot = true) :
    hasSuffixB s ('.' :: e) = true ↔ (s.contains '.' = true ∧ extAfterDot s = e) := by
  unfold hasSuffixB
  rw [List.isSuffixOf_iff_suffix]
  constructor
  · rintro ⟨t, rfl⟩
    constructor
    · simp [List.contains]
    · unfold extAfterDot
      rw [List.reverse_append, List.reverse_cons]
      rw [show e.reverse ++ ['.'] ++ t.reverse = e.reverse ++ '.' :: t.reverse by simp]
      rw [takeWhile_middle notDot e.reverse '.' t.reverse
          (fun a ha => by
            have hae : a ∈ e := by simpa using ha
            exact (List.all_eq_true.mp hnd) a hae)
          (by simp [notDot])]
      simp
  · rintro ⟨hc, hext⟩
    have hmem : '.' ∈ s.reverse := by
      simp only [List.contains] at hc
      simp [List.elem_iff.mp hc]
    have hdw : List.dropWhile notDot s.reverse ≠ [] := by
      intro hnil
      have hall := List.dropWhile_eq_nil_iff.mp hnil '.' hmem
      simp [notDot] at hall
    obtain ⟨c, rest, hcr⟩ := List.exists_cons_of_ne_nil hdw
    have hcdot : c = '.' := by
      have hf := dropWhile_head_false notDot s.reverse c rest hcr
      simpa [notDot] using hf
    have hsplit : s.reverse = List.takeWhile notDot s.reverse ++ c :: rest := by
      rw [← hcr, List.takeWhile_append_dropWhile]
    have htw : List.takeWhile notDot s.reverse = e.reverse := by
      unfold extAfterDot at hext
      have h2 := congrArg List.reverse hext
      simpa using h2
    refine ⟨rest.reverse, ?_⟩
    have h3 := congrArg List.reverse hsplit
    simp only [List.reverse_reverse] at h3
    rw [h3, htw, hcdot]
    simp

theorem checkExt_iff (name : Str) (l : List Str)
    (hl : ∀ e ∈ l, trimLeftDots e = e ∧ e.all notDot = true) :
    checkExt name l = true ↔
      ((toLowerStr name).contains '.' = true ∧ extAfterDot (toLowerStr name) ∈ l) := by
  unfold checkExt
  rw [List.any_eq_true]
  constructor
  · rintro ⟨e, he, hsuf⟩
    obtain ⟨ht, hnd⟩ := hl e he
    rw [ht] at hsuf
    obtain ⟨hc, hext⟩ := (hasSuffixB_ext_iff _ e hnd).mp hsuf
    exact ⟨hc, hext ▸ he⟩
  · rintro ⟨hc, hmem⟩
    refine ⟨extAfterDot (toLowerStr name), hmem, ?_⟩
    obtain ⟨ht, hnd⟩ := hl _ hmem
    rw [ht]
    exact (hasSuffixB_ext_iff _ _ hnd).mpr ⟨hc, rfl⟩

theorem seqWithin_parts {α : Type} [BEq α] [LawfulBEq α] (pat pre post s : List α)
    (h : s = pre ++ pat ++ post) : seqWithin pat s = true := by
  unfold seqWithin
  rw [List.any_eq_true]
  refine ⟨pre.length, ?_, ?_⟩
  · rw [List.mem_range]
    subst h
    simp only [List.length_append]
    omega
  · subst h
    rw [List.append_assoc, List.drop_left, List.take_left]
    exact beq_self_eq_true pat

theorem range1_split (k n : ℕ) (h : k < n) :
    List.range' 1 n = List.range' 1 k ++ (1 + k) :: List.range' (1 + k + 1) (n - k - 1) := by
  have h1 : List.range' 1 k ++ List.range' (1 + 1 * k) (n - k) 1 = List.range' 1 ((n - k) + k) :=
    List.range'_append 1 k (n - k) 1
  simp only [one_mul] at h1
  rw [show (n - k) + k = n by omega] at h1
  rw [← h1]
  congr 1
  obtain ⟨m, hm⟩ : ∃ m, n - k = m + 1 := ⟨n - k - 1, by omega⟩
  rw [hm, List.range'_succ]
  congr 2

theorem mapSeg_split (k n : ℕ) (h : k < n) :
    ∃ l1 l2, mapSeg n = l1 ++ [str "-map", intToStr ((k : ℤ) + 1)] ++ l2 := by
  unfold mapSeg
  rw [range1_split k n h, List.flatMap_append, List.flatMap_cons]
  refine ⟨(List.range' 1 k).flatMap fun i => [str "-map", intToStr (i : ℤ)],
    (List.range' (1 + k + 1) (n - k - 1)).flatMap fun i => [str "-map", intToStr (i : ℤ)],
    ?_⟩
  have hcast : ((1 + k : ℕ) : ℤ) = (k : ℤ) + 1 := by push_cast; ring
  rw [hcast]
  simp [List.append_assoc]

theorem subMetaLoop_range (ui : UserInput) : ∀ (subs : List Str) (i : ℕ),
    subMetaLoop ui i subs
      = (List.range subs.length).flatMap fun k => subMetaEntry ui (i + k) (subs.getD k []) := by
  intro subs
  induction subs with
  | nil =>
    intro i
    simp [subMetaLoop]
  | cons s rest ih =>
    intro i
    rw [subMetaLoop, ih (i + 1), List.length_cons, List.range_succ_eq_map,
      List.flatMap_cons, List.flatMap_map]
    congr 1
    congr 1
    funext k
    rw [show i + (k + 1) = i + 1 + k from by omega]
    simp [List.getD_cons_succ]


/-- Claim C7 (confirmed): the subtitle metadata directives use indices that are
contiguous from 0 and follow the order of the subtitle list; the segment (and
everything before it) is a function of the subtitle list alone, independent of
the chapter and attachment lists, and independent of the subtitles' absolute
input indices (which start at 1). -/
theorem subtitle_metadata_indices (d o m : Str) (ui : UserInput)
    (subs atts chaps atts2 chaps2 : List Str) :
    generateCmdArgs d ui o m subs atts chaps
      = leadSeg d ui m subs ++ tailSeg d ui o m atts chaps ∧
    generateCmdArgs d ui o m subs atts2 chaps2
      = leadSeg d ui m subs ++ tailSeg d ui o m atts2 chaps2 ∧
    leadSeg d ui m subs
      = inputSeg d m subs ++ [str "-c", str "copy"] ++ mapSeg subs.length
          ++ subMetaLoop ui 0 subs ∧
    subMetaLoop ui 0 subs
      = (List.range subs.length).flatMap fun k => subMetaEntry ui k (subs.getD k []) := by
  refine ⟨rfl, rfl, rfl, ?_⟩
  simpa using subMetaLoop_range ui subs 0

/-- Claim C6 (confirmed): `sourceDir` validation distinguishes the three
classification failures (no media file / multiple media files / no extra
files), returning an error — and hence no argument vector — in each, and builds
the command exactly when one media file and at least one extra file are
present. -/
theorem sourceDir_validation_cases (dir resDir : Str) (ui : UserInput)
    (ign : Str → Bool) (files : List Str) :
    ((groupFiles ign files).media = [] →
      sourceDirProcess dir resDir ui ign files = .error .noMediaFile) ∧
    (∀ x y rest, (groupFiles ign files).media = x :: y :: rest →
      sourceDirProcess dir resDir ui ign files = .error .multipleMediaFiles) ∧
    (∀ x, (groupFiles ign files).media = [x] →
      (groupFiles ign files).subs = [] → (groupFiles ign files).atts = [] →
      (groupFiles ign files).chaps = [] →
      sourceDirProcess dir resDir ui ign files = .error .noExtraFiles) ∧
    (∀ x, (groupFiles ign files).media = [x] →
      ((groupFiles ign files).subs ≠ [] ∨ (groupFiles ign files).atts ≠ [] ∨
        (groupFiles ign files).chaps ≠ []) →
      sourceDirProcess dir resDir ui ign files
        = .ok (generateCmdArgs dir ui resDir x (groupFiles ign files).subs
            (groupFiles ign files).atts (groupFiles ign files).chaps)) := by
  refine ⟨?_, ?_, ?_, ?_⟩
  · intro h
    simp only [sourceDirProcess, h]
  · intro x y rest h
    simp only [sourceDirProcess, h]
    simp
  · intro x h hs ha hc
    simp only [sourceDirProcess, h, hs, ha, hc]
    simp
  · intro x h hext
    simp only [sourceDirProcess, h]
    have hlen : ¬ ((groupFiles ign files).subs.length = 0 ∧
        (groupFiles ign files).atts.length = 0 ∧
        (groupFiles ign files).chaps.length = 0) := by
      simp only [List.length_eq_zero]
      rcases hext with hx | hx | hx <;> tauto
    simp [hlen]
    intro hs ha hc
    rcases hext with hx | hx | hx <;> contradiction

/-- Witness for C6: one concrete directory for each of the four cases. -/
theorem sourceDir_validation_witness :
    sourceDirProcess (str "d") (str "r") uiPlain (fun _ => false) [str "x.txt"]
      = .error .noMediaFile ∧
    sourceDirProcess (str "d") (str "r") uiPlain (fun _ => false)
      [str "a.mkv", str "b.mkv"] = .error .multipleMediaFiles ∧
    sourceDirProcess (str "d") (str "r") uiPlain (fun _ => false) [str "a.mkv"]
      = .error .noExtraFiles ∧
    sourceDirProcess (str "d") (str "r") uiPlain (fun _ => false)
      [str "a.mkv", str "s.srt"]
      = .ok (generateCmdArgs (str "d") uiPlain (str "r") (str "a.mkv")
          [str "s.srt"] [] []) :=
  ⟨(sourceDir_validation_cases (str "d") (str "r") uiPlain (fun _ => false)
      [str "x.txt"]).1 (by decide),
   (sourceDir_validation_cases (str "d") (str "r") uiPlain (fun _ => false)
      [str "a.mkv", str "b.mkv"]).2.1 (str "a.mkv") (str "b.mkv") [] (by decide),
   (sourceDir_validation_cases (str "d") (str "r") uiPlain (fun _ => false)
      [str "a.mkv"]).2.2.1 (str "a.mkv") (by decide) (by decide) (by decide) (by decide),
   (sourceDir_validation_cases (str "d") (str "r") uiPlain (fun _ => false)
      [str "a.mkv", str "s.srt"]).2.2.2 (str "a.mkv") (by decide)
     (Or.inl (by decide))⟩

/-- Claim C1 (counterexample): in that directory the argument vector contains
the directive pair `-map 1` but no `-map 0` — the claim asserted both. -/
theorem generateCmd_map_zero_absent :
    seqWithin [str "-map", str "1"] exArgs = true ∧
    seqWithin [str "-map", str "0"] exArgs = false := by
  constructor
  · decide
  · decide

/-- Claim C1 (amended, proved): after the `-c copy` directive the vector
contains one `-map i` directive per subtitle input, for i = 1 .. n in that
order; the media input (index 0) is never mapped — as in the example above,
where `-map 0` is absent. -/
theorem generateCmd_maps_subtitle_inputs (d o m : Str) (ui : UserInput)
    (subs atts chaps : List Str) :
    generateCmdArgs d ui o m subs atts chaps
      = inputSeg d m subs ++ [str "-c", str "copy"] ++ mapSeg subs.length
          ++ (subMetaLoop ui 0 subs ++ tailSeg d ui o m atts chaps) ∧
    (∀ k, k < subs.length →
      seqWithin [str "-map", intToStr ((k : ℤ) + 1)]
        (generateCmdArgs d ui o m subs atts chaps) = true) ∧
    seqWithin [str "-map", str "0"] exArgs = false := by
  refine ⟨by simp [generateCmdArgs, leadSeg, List.append_assoc], ?_, by decide⟩
  intro k hk
  obtain ⟨l1, l2, hsplit⟩ := mapSeg_split k subs.length hk
  apply seqWithin_parts _
    (inputSeg d m subs ++ [str "-c", str "copy"] ++ l1)
    (l2 ++ (subMetaLoop ui 0 subs ++ tailSeg d ui o m atts chaps))
  show generateCmdArgs d ui o m subs atts chaps = _
  rw [show generateCmdArgs d ui o m subs atts chaps
      = inputSeg d m subs ++ [str "-c", str "copy"] ++ mapSeg subs.length
          ++ (subMetaLoop ui 0 subs ++ tailSeg d ui o m atts chaps) from by
        simp [generateCmdArgs, leadSeg, List.append_assoc]]
  rw [hsplit]
  simp [List.append_assoc]

/-- Witness for C1: the subtitle input of the example directory is mapped. -/
theorem generateCmd_maps_witness :
    seqWithin [str "-map", intToStr ((0 : ℤ) + 1)] exArgs = true :=
  (generateCmd_maps_subtitle_inputs (str "src") (str "out") (str "movie.mkv")
    uiPlain [str "subs.srt"] [] [str "chapters.xml"]).2.1 0 (by decide)

theorem ratTrunc_intCast (z : ℤ) : ratTrunc ((z : ℤ) : ℚ) = z := by
  unfold ratTrunc
  rw [Rat.num_intCast, Rat.den_intCast]
  exact Int.tdiv_one z

theorem percentOf_zero (t : ℤ) : percentOf 0 t = 0 := by
  unfold percentOf
  simp

theorem percentOf_self (t : ℤ) (h : t ≠ 0) : percentOf t t = 100 := by
  unfold percentOf
  push_cast
  rw [mul_comm]
  rw [mul_div_assoc]
  rw [div_self (by exact_mod_cast h)]
  ring

theorem normalBar_zero : progressBar 0 0
    = (some (str "[ " ++ [] ++ '>' :: List.replicate 39 ' ' ++ str " ]"), 0) := by
  decide

theorem getProgress_zeros (u : Upd) : getProgress u 0 0 0 0
    = (some (progressDialog u.fileName
        (str "[ " ++ [] ++ '>' :: List.replicate 39 ' ' ++ str " ]")
        (str "0.00") 0 0 (str "0.00 B")), 0) := by
  unfold getProgress
  rw [percentOf_zero, show ratTrunc 0 = 0 from by
      rw [show (0 : ℚ) = ((0 : ℤ) : ℚ) from by norm_num, ratTrunc_intCast],
    normalBar_zero,
    show ((0 : ℤ) : ℚ) = 0 from by norm_num, readableFileSize_zero, format2_zero]

/-- Claim C3 (confirmed): a file whose extension (after lower-casing, i.e.
case-insensitively) belongs to one of the four fixed enumerations is classified
into exactly that category, and a file whose extension belongs to none of them
is assigned no category. -/
theorem classify_unique_category (name : Str) :
    (∀ c : FileCategory,
      (toLowerStr name).contains '.' = true →
      extAfterDot (toLowerStr name) ∈ catExts c →
      classifyFile name = some c) ∧
    ((∀ c : FileCategory, ¬ ((toLowerStr name).contains '.' = true ∧
        extAfterDot (toLowerStr name) ∈ catExts c)) →
      classifyFile name = none) := by
  have hv := checkExt_iff name videoExt (by decide)
  have hs := checkExt_iff name subsExt (by decide)
  have ha := checkExt_iff name attachmentExt (by decide)
  have hc := checkExt_iff name chaptersExt (by decide)
  have dsv : ∀ a ∈ subsExt, a ∉ videoExt := by decide
  have dav : ∀ a ∈ attachmentExt, a ∉ videoExt := by decide
  have das : ∀ a ∈ attachmentExt, a ∉ subsExt := by decide
  have dcv : ∀ a ∈ chaptersExt, a ∉ videoExt := by decide
  have dcs : ∀ a ∈ chaptersExt, a ∉ subsExt := by decide
  have dca : ∀ a ∈ chaptersExt, a ∉ attachmentExt := by decide
  constructor
  · intro c hdot hmem
    cases c with
    | media =>
      have h1 : checkExt name videoExt = true := hv.mpr ⟨hdot, hmem⟩
      simp [classifyFile, h1]
    | subtitle =>
      have h1 : checkExt name videoExt = false := by
        cases hcv : checkExt name videoExt
        · rfl
        · exact absurd (hv.mp hcv).2 (dsv _ hmem)
      have h2 : checkExt name subsExt = true := hs.mpr ⟨hdot, hmem⟩
      simp [classifyFile, h1, h2]
    | attachment =>
      have h1 : checkExt name videoExt = false := by
        cases hcv : checkExt name videoExt
        · rfl
        · exact absurd (hv.mp hcv).2 (dav _ hmem)
      have h2 : checkExt name subsExt = false := by
        cases hcv : checkExt name subsExt
        · rfl
        · exact absurd (hs.mp hcv).2 (das _ hmem)
      have h3 : checkExt name attachmentExt = true := ha.mpr ⟨hdot, hmem⟩
      simp [classifyFile, h1, h2, h3]
    | chapter =>
      have h1 : checkExt name videoExt = false := by
        cases hcv : checkExt name videoExt
        · rfl
        · exact absurd (hv.mp hcv).2 (dcv _ hmem)
      have h2 : checkExt name subsExt = false := by
        cases hcv : checkExt name subsExt
        · rfl
        · exact absurd (hs.mp hcv).2 (dcs _ hmem)
      have h3 : checkExt name attachmentExt = false := by
        cases hcv : checkExt name attachmentExt
        · rfl
        · exact absurd (ha.mp hcv).2 (dca _ hmem)
      have h4 : checkExt name chaptersExt = true := hc.mpr ⟨hdot, hmem⟩
      simp [classifyFile, h1, h2, h3, h4]
  · intro hnone
    have h1 : checkExt name videoExt = false := by
      cases hcv : checkExt name videoExt
      · rfl
      · exact absurd (hv.mp hcv) (hnone .media)
    have h2 : checkExt name subsExt = false := by
      cases hcv : checkExt name subsExt
      · rfl
      · exact absurd (hs.mp hcv) (hnone .subtitle)
    have h3 : checkExt name attachmentExt = false := by
      cases hcv : checkExt name attachmentExt
      · rfl
      · exact absurd (ha.mp hcv) (hnone .attachment)
    have h4 : checkExt name chaptersExt = false := by
      cases hcv : checkExt name chaptersExt
      · rfl
      · exact absurd (hc.mp hcv) (hnone .chapter)
    simp [classifyFile, h1, h2, h3, h4]

/-- Witness for C3: an upper-cased media file is classified as media; a file
with an unrecognized extension is classified into no category. -/
theorem classify_unique_witness :
    classifyFile (str "Movie.MKV") = some .media ∧
    classifyFile (str "notes.txt") = none :=
  ⟨(classify_unique_category (str "Movie.MKV")).1 .media (by decide) (by decide),
   (classify_unique_category (str "notes.txt")).2 (fun c => by cases c <;> decide)⟩

theorem displayTickCore_run (u : Upd) (statSize : Str → ℤ) (anim : ℤ)
    (frames fps size r a)
    (hns : ¬ (frames = convFail ∧ fps = convFail ∧ size = convFail))
    (hgp : getProgress u frames fps size anim = (some r, a)) :
    displayTickCore u statSize anim frames fps size false
      = ⟨some r, none, false, .running, a⟩ := by
  simp [displayTickCore, hns, hgp]

theorem displayTickCore_finPanic (u : Upd) (statSize : Str → ℤ) (anim : ℤ)
    (frames fps size r a a2)
    (hns : ¬ (frames = convFail ∧ fps = convFail ∧ size = convFail))
    (hgp : getProgress u frames fps size anim = (some r, a))
    (hfin : getProgress u u.totalFrames fps (statSize (finalStatPath u)) a = (none, a2)) :
    displayTickCore u statSize anim frames fps size true
      = ⟨some r, none, false, .panicked, a2⟩ := by
  simp [displayTickCore, hns, hgp, hfin]

theorem displayTick_core_eq (u : Upd) (statSize : Str → ℤ) (anim : ℤ) (buf : Str)
    (interrupt : Bool) (frames fps size : ℤ)
    (hx : extractData buf = (frames, fps, size)) :
    displayTick u statSize anim buf interrupt
      = displayTickCore u statSize anim frames fps size interrupt := by
  unfold displayTick
  rw [show (extractData buf).1 = frames from by rw [hx],
      show (extractData buf).2.1 = fps from by rw [hx],
      show (extractData buf).2.2 = size from by rw [hx]]

/-- Claim C8 (counterexample): a negative `totalFrames` does not by itself
produce the "unknown" bar — one processed frame against totalFrames = −100
gives percentage −1, fill count 1, and the normal bar rendering. -/
theorem progressBar_negative_total_normal :
    percentOf 1 (-100) = -1 ∧
    ratTrunc (percentOf 1 (-100)) = -1 ∧
    pbFills (-1) = 1 ∧
    progressBar (-1) 0
      = (some (str "[ " ++ [] ++ '>' :: List.replicate 39 ' ' ++ str " ]"), 0) ∧
    ('?' ∈ (str "[ " ++ [] ++ '>' :: List.replicate 39 ' ' ++ str " ]")) = False := by
  have hp : percentOf 1 (-100) = -1 := by
    unfold percentOf
    norm_num
  refine ⟨hp, ?_, by decide, by decide, by decide⟩
  rw [hp, show (-1 : ℚ) = ((-1 : ℤ) : ℚ) from by norm_num, ratTrunc_intCast]

/-- Claim C8 (amended, proved): the percentage is 100·frames/totalFrames, and
the bar threaded through `getProgress` is `progressBar` of its truncation;
whenever the computed fill count is negative or exceeds the bar width,
`progressBar` yields the distinct question-mark bar (no fill glyph `>`)
instead of crashing, driven by the secondary counter that grows by 5 per call
and resets once it reaches the bar width — but `totalFrames ≤ 0` alone does not
trigger it (see the counterexample). -/
theorem progressBar_unknown_rendering (p anim : ℤ) (h0 : 0 ≤ anim)
    (hf : pbFills p < 0 ∨ pbLen - pbFills p < 0) :
    progressBar p anim
      = (some (str "[ " ++ List.replicate (pbAnimNext anim).toNat '?'
          ++ List.replicate (pbLen - pbAnimNext anim).toNat ' ' ++ str " ]"),
         pbAnimNext anim) ∧
    '>' ∉ (str "[ " ++ List.replicate (pbAnimNext anim).toNat '?'
          ++ List.replicate (pbLen - pbAnimNext anim).toNat ' ' ++ str " ]") ∧
    pbAnimNext anim = (if 40 ≤ anim + 5 then 0 else anim + 5) ∧
    (∀ f t : ℤ, t ≠ 0 → percentOf f t * (t : ℚ) = (f : ℚ) * 100) ∧
    (∀ u : Upd, ∀ f fps size anim2 : ℤ,
      (getProgress u f fps size anim2).2
        = (progressBar (ratTrunc (percentOf f u.totalFrames)) anim2).2) := by
  have hnext0 : 0 ≤ pbAnimNext anim := by
    unfold pbAnimNext pbLen
    split
    · omega
    · omega
  have hgap : 0 ≤ pbLen - pbAnimNext anim := by
    unfold pbAnimNext pbLen at hnext0 ⊢
    split
    · omega
    · omega
  refine ⟨?_, ?_, ?_, ?_, ?_⟩
  · unfold progressBar
    rw [if_pos hf]
    unfold charRepeat
    rw [if_neg (not_lt.mpr hnext0), if_neg (not_lt.mpr hgap)]
  · intro hmem
    rcases List.mem_append.mp hmem with hmem2 | hmem2
    · rcases List.mem_append.mp hmem2 with hmem3 | hmem3
      · rcases List.mem_append.mp hmem3 with hmem4 | hmem4
        · simp [str] at hmem4
        · exact absurd (List.eq_of_mem_replicate hmem4) (by decide)
      · exact absurd (List.eq_of_mem_replicate hmem3) (by decide)
    · simp [str] at hmem2
  · unfold pbAnimNext pbLen
    split
    · rw [if_pos (by omega)]
    · rw [if_neg (by omega)]
  · intro f t ht
    unfold percentOf
    push_cast
    rw [div_mul_cancel₀ _ (by exact_mod_cast ht)]
  · intro u f fps size anim2
    unfold getProgress
    rcases hpb : progressBar (ratTrunc (percentOf f u.totalFrames)) anim2 with ⟨b, a2⟩
    cases b <;> cases hrf : readableFileSize ((size : ℤ) : ℚ) <;> rfl

/-- Witness for C8 at truncated percentage 103 (fill count 41 > 40). -/
theorem progressBar_unknown_witness :
    progressBar 103 0
      = (some (str "[ " ++ List.replicate (pbAnimNext 0).toNat '?'
          ++ List.replicate (pbLen - pbAnimNext 0).toNat ' ' ++ str " ]"),
         pbAnimNext 0) ∧
    '>' ∉ (str "[ " ++ List.replicate (pbAnimNext 0).toNat '?'
          ++ List.replicate (pbLen - pbAnimNext 0).toNat ' ' ++ str " ]") ∧
    pbAnimNext 0 = (if 40 ≤ (0 : ℤ) + 5 then 0 else 0 + 5) ∧
    (∀ f t : ℤ, t ≠ 0 → percentOf f t * (t : ℚ) = (f : ℚ) * 100) ∧
    (∀ u : Upd, ∀ f fps size anim2 : ℤ,
      (getProgress u f fps size anim2).2
        = (progressBar (ratTrunc (percentOf f u.totalFrames)) anim2).2) :=
  progressBar_unknown_rendering 103 0 (by decide) (Or.inr (by decide))

/-- Claim C4 (counterexample): a tick in which nothing can be extracted (an
empty buffer) renders the numeric zero-progress dialog — which contains the
numeric statistics line and no filler glyph — rather than an indeterminate
animation. -/
theorem monitor_empty_tick_numeric :
    extractData [] = (0, 0, 0) ∧
    displayTick uMkv (fun _ => 0) 0 [] false
      = ⟨some dlgZero, none, false, .running, 0⟩ ∧
    seqWithin (str "Frames Processed: 0") dlgZero = true ∧
    dlgZero.contains '?' = false := by
  refine ⟨by decide, ?_, by decide, by decide⟩
  rw [displayTick_core_eq uMkv (fun _ => 0) 0 [] false 0 0 0 (by decide)]
  exact displayTickCore_run uMkv (fun _ => 0) 0 0 0 0 dlgZero 0 (by decide)
    (by rw [getProgress_zeros uMkv]; rfl)

/-- Claim C4 (amended, proved): in any tick where none of the three patterns
captures a value, `extractData` returns the zero values (not the failure
sentinels), and the monitor renders the numeric `getProgress` dialog for
zeros — not an indeterminate animation; the non-numeric branch (a static error
message) is reachable only when all three values are the sentinel −1. -/
theorem monitor_no_extract_renders_dialog (u : Upd) (statSize : Str → ℤ)
    (anim : ℤ) (buf : Str)
    (h1 : lastCapture buf (str "frame=") false = none)
    (h2 : lastCapture buf (str "fps=") false = none)
    (h3 : lastCapture buf (str "size=") true = none) :
    extractData buf = (0, 0, 0) ∧
    (∀ r a2, getProgress u 0 0 0 anim = (some r, a2) →
      displayTick u statSize anim buf false = ⟨some r, none, false, .running, a2⟩) ∧
    ¬ ((0 : ℤ) = convFail ∧ (0 : ℤ) = convFail ∧ (0 : ℤ) = convFail) := by
  have hx : extractData buf = (0, 0, 0) := by
    unfold extractData
    rw [h1, h2, h3]
  refine ⟨hx, ?_, by decide⟩
  intro r a2 hgp
  rw [displayTick_core_eq u statSize anim buf false 0 0 0 hx]
  exact displayTickCore_run u statSize anim 0 0 0 r a2 (by decide) hgp

/-- Witness for C4 at the empty buffer. -/
theorem monitor_no_extract_witness :
    extractData [] = (0, 0, 0) ∧
    displayTick uMkv (fun _ => 0) 0 [] false
      = ⟨some dlgZero, none, false, .running, 0⟩ :=
  ⟨(monitor_no_extract_renders_dialog uMkv (fun _ => 0) 0 []
      (by decide) (by decide) (by decide)).1,
   (monitor_no_extract_renders_dialog uMkv (fun _ => 0) 0 []
      (by decide) (by decide) (by decide)).2.1 dlgZero 0
     (by rw [getProgress_zeros uMkv]; rfl)⟩

/-- Claim C2 (code bug): the final sample stats the file named by the media
file's ORIGINAL name inside the result directory (`res/movie.mp4`) instead of
the render's output file (`res/movie.mkv`, the last argument of the generated
command); with only the real output file on disk, `getFileSize` returns −10,
the final `getProgress` panics inside `readableFileSize`, and the
acknowledgement is never sent. -/
theorem monitor_final_wrong_path :
    finalStatPath uMp4 = str "res/movie.mp4" ∧
    joinPath uMp4.resDir (outputName uMp4.fileName) = str "res/movie.mkv" ∧
    finalStatPath uMp4 ≠ joinPath uMp4.resDir (outputName uMp4.fileName) ∧
    (generateCmdArgs (str "src") uiPlain (str "res") (str "movie.mp4")
        [str "s.srt"] [] []).getLast? = some (str "res/movie.mkv") ∧
    statMp4World (finalStatPath uMp4) = -10 ∧
    (displayTick uMp4 statMp4World 0 [] true).outcome = .panicked ∧
    (displayTick uMp4 statMp4World 0 [] true).ack = false := by
  have hfin : getProgress uMp4 uMp4.totalFrames 0
      (statMp4World (finalStatPath uMp4)) 0 = (none, 0) := by
    unfold getProgress
    rw [show statMp4World (finalStatPath uMp4) = -10 from by decide]
    rw [show ((-10 : ℤ) : ℚ) = -10 from by norm_num]
    rw [show readableFileSize (-10) = .panicNegative from by
      unfold readableFileSize
      rw [if_pos (by norm_num)]]
    rw [show uMp4.totalFrames = 2400 from rfl]
    rw [show percentOf 2400 2400 = 100 from percentOf_self 2400 (by decide)]
    rw [show ratTrunc 100 = 100 from by
      rw [show (100 : ℚ) = ((100 : ℤ) : ℚ) from by norm_num, ratTrunc_intCast]]
    rw [show progressBar 100 0
        = (some (str "[ " ++ List.replicate 39 '=' ++ '>' :: List.replicate 0 ' '
            ++ str " ]"), 0) from by decide]
  have htick : displayTick uMp4 statMp4World 0 [] true
      = ⟨some (progressDialog (str "movie.mp4")
          (str "[ " ++ [] ++ '>' :: List.replicate 39 ' ' ++ str " ]")
          (str "0.00") 0 0 (str "0.00 B")), none, false, .panicked, 0⟩ := by
    rw [displayTick_core_eq uMp4 statMp4World 0 [] true 0 0 0 (by decide)]
    exact displayTickCore_finPanic uMp4 statMp4World 0 0 0 0 _ 0 0 (by decide)
      (by rw [getProgress_zeros uMp4]; rfl) hfin
  refine ⟨by decide, by decide, by decide, by decide, by decide, ?_, ?_⟩
  · rw [htick]
  · rw [htick]

/-- Claim C9 (confirmed): `trimString` returns every string of length at most
48 unchanged; for every longer string the result has length exactly 48 and is a
22-character prefix of the original, the fixed `"...."` marker, and a
22-character suffix of the original. -/
theorem trimString_limit (s : Str) :
    (s.length ≤ strTrimLen → trimString s = s) ∧
    (strTrimLen < s.length →
      (trimString s).length = strTrimLen ∧
      trimString s = s.take 22 ++ sepEllipsis ++ s.drop (s.length - 22) ∧
      (s.take 22).length = 22 ∧
      (s.drop (s.length - 22)).length = 22) := by
  constructor
  · intro h
    unfold trimString
    rw [if_pos h]
  · intro h
    have hnot : ¬ s.length ≤ strTrimLen := by omega
    have hlen : strTrimLen < s.length := h
    have h48 : strTrimLen = 48 := rfl
    have hsep : sepEllipsis.length = 4 := rfl
    have hhalf : (strTrimLen - sepEllipsis.length) / 2 = 22 := rfl
    unfold trimString
    rw [if_neg hnot, hhalf]
    refine ⟨?_, rfl, ?_, ?_⟩
    · simp only [List.length_append, List.length_take, List.length_drop, hsep]
      rw [h48] at hlen
      omega
    · simp only [List.length_take]
      rw [h48] at hlen
      omega
    · simp only [List.length_drop]
      rw [h48] at hlen
      omega

/-- Witness for C9 at a short and at a 50-character name. -/
theorem trimString_limit_witness :
    trimString (str "movie.mkv") = str "movie.mkv" ∧
    (trimString (str "a-very-long-media-file-name-that-keeps-going-on.mkv")).length
      = strTrimLen :=
  ⟨(trimString_limit (str "movie.mkv")).1 (by decide),
   ((trimString_limit (str "a-very-long-media-file-name-that-keeps-going-on.mkv")).2
      (by decide)).1⟩

/-- Claim C5 (confirmed): `readableFileSize` renders 1024 as `"1.00 KiB"` and
1855425871872 as `"1.69 TiB"`, panics on every negative input, and on the range
covered by its unit list converts by repeated division by 1024 with two-decimal
rounding into a binary-prefixed unit. -/
theorem readableFileSize_units_and_negative :
    readableFileSize 1024 = .ok (str "1.00 KiB") ∧
    readableFileSize 1855425871872 = .ok (str "1.69 TiB") ∧
    (∀ x : ℚ, x < 0 → readableFileSize x = .panicNegative) ∧
    (∀ x : ℚ, 0 ≤ x → x < 1024 ^ 6 →
      ∃ k, k < 6 ∧ divLoop x 0 = (x / 1024 ^ k, k) ∧
        readableFileSize x = .ok (format2 (x / 1024 ^ k) ++ ' ' :: unitsList.getD k [])) := by
  refine ⟨?_, ?_, ?_, ?_⟩
  · unfold readableFileSize
    rw [if_neg (by norm_num), divLoop_kib]
    show SizeResult.ok (format2 1 ++ ' ' :: str "KiB") = _
    rw [format2_one]
    decide
  · unfold readableFileSize
    rw [if_neg (by norm_num), divLoop_tib]
    show SizeResult.ok (format2 (27 / 16) ++ ' ' :: str "TiB") = _
    rw [format2_tib]
    decide
  · intro x hx
    unfold readableFileSize
    rw [if_pos hx]
  · intro x h0 h6
    obtain ⟨k, hk, hloop⟩ := divLoop_bounded 5 x 0 (by norm_num at h6 ⊢; exact h6)
    refine ⟨k, by omega, by simpa using hloop, ?_⟩
    unfold readableFileSize
    rw [if_neg (not_lt.mpr h0), hloop]
    interval_cases k <;> rfl

/-- Witness for C5 at −5 (negative panic) and at 2048 (division law). -/
theorem readableFileSize_units_witness :
    readableFileSize (-5) = .panicNegative ∧
    (∃ k, k < 6 ∧ divLoop 2048 0 = ((2048 : ℚ) / 1024 ^ k, k) ∧
      readableFileSize 2048
        = .ok (format2 ((2048 : ℚ) / 1024 ^ k) ++ ' ' :: unitsList.getD k [])) :=
  ⟨readableFileSize_units_and_negative.2.2.1 (-5) (by norm_num),
   readableFileSize_units_and_negative.2.2.2 2048 (by norm_num) (by norm_num)⟩

/-- Claim C10 (confirmed): the unit list stops at `PiB` (six entries) while the
division loop counts without bound, so every input of at least 1024^6 bytes
drives the counter to 6 or beyond and the final `units[counter]` access panics,
although the input is non-negative. -/
theorem readableFileSize_eib_panics (x : ℚ) (h : (1024 : ℚ) ^ 6 ≤ x) :
    readableFileSize x = .panicIndexRange := by
  have h0 : ¬ x < 0 := by
    have : (0 : ℚ) < 1024 ^ 6 := by positivity
    linarith
  have hc : 6 ≤ (divLoop x 0).2 := by
    simpa using divLoop_count_ge 6 x 0 h
  unfold readableFileSize
  rw [if_neg h0]
  have hnone : unitsList.get? (divLoop x 0).2 = none := by
    apply List.get?_eq_none.mpr
    simpa [unitsList] using hc
  simp only [hnone]

/-- Witness for C10 at exactly one EiB. -/
theorem readableFileSize_eib_witness :
    readableFileSize ((1024 : ℚ) ^ 6) = .panicIndexRange :=
  readableFileSize_eib_panics ((1024 : ℚ) ^ 6) (le_refl _)

end AutoSub
